import Mathlib

/-!
Verification development for yt_playlist_exporter.py.

The Python program is shallowly embedded: every function of the source file
that the properties below touch is translated into a computable Lean
definition.  Interactions with the outside world are made explicit inputs:

* the yt-dlp backend response of one extraction call is a parameter
  (an absent / failed response is modelled with Option and Except);
* filesystem existence checks are Bool parameters;
* file writes are modelled by returning the written path together with a
  structured rendering of the file content (one record per written row,
  one group per written subheader);
* the completion order of the thread pool in hybrid_enrich is a parameter
  (a permutation of the submitted tasks).

Python truthiness of strings / None and the "x or y" idiom are modelled
by the py_* helpers.  Strings are handled through their character lists
(py_strip, py_startswith, split_all) so that all definitions evaluate by
kernel reduction; Python str.strip strips a slightly larger Unicode
whitespace set than Char.isWhitespace, and percent-decoding inside query
strings (urllib parse_qs applies unquote_plus) is not modelled - no
property below depends on either.
-/

/-- Python `a or b` on strings: `""` and missing values are both encoded as
`""`, which is falsy. -/
def py_or (a b : String) : String := if a = "" then b else a

/-- Python truthiness of an optional string argument (None and `""` are
falsy). -/
def py_truthy_str : Option String → Bool
  | none => false
  | some s => s != ""

/-- Python `a or b` where `a` is an optional integer (None and 0 are falsy),
used for `e.get("playlist_index") or i`. -/
def py_or_nat (a : Option Nat) (b : Nat) : Nat :=
  match a with
  | none => b
  | some k => if k = 0 then b else k

/-- Two-digit zero padding used by `str(timedelta)` for minutes/seconds. -/
def pad2 (n : Nat) : String := if n < 10 then "0" ++ toString n else toString n

/-- `seconds_to_hms` (source lines 35-41): `str(timedelta(seconds=int(s)))`
for a non-negative integer number of seconds; `None` and `''` give `""`.
(The `except` branch for non-numeric input is unreachable for integer
durations and is not modelled.) -/
def seconds_to_hms (seconds : Option Nat) : String :=
  match seconds with
  | none => ""
  | some s =>
    let d := s / 86400
    let rem := s % 86400
    let hms := toString (rem / 3600) ++ ":" ++ pad2 ((rem % 3600) / 60) ++ ":" ++ pad2 (rem % 60)
    if d = 0 then hms
    else toString d ++ (if d = 1 then " day, " else " days, ") ++ hms

/-- The duration field idiom used by all three extractors:
`seconds_to_hms(e.get("duration")) if e.get("duration") else ""`
(0 seconds is falsy). -/
def duration_field (d : Option Nat) : String :=
  match d with
  | none => ""
  | some n => if n = 0 then "" else seconds_to_hms (some n)

/-- Python `str.strip()` (ASCII whitespace). -/
def py_strip (s : String) : String :=
  String.mk (((s.data.dropWhile Char.isWhitespace).reverse.dropWhile Char.isWhitespace).reverse)

/-- Python `str.startswith(pre)`. -/
def py_startswith (s pre : String) : Bool := pre.data.isPrefixOf s.data

/-- Split a character list at the first occurrence of `c`: returns the part
before it and, when `c` occurs, the part after it. -/
def break_at (c : Char) : List Char → List Char × Option (List Char)
  | [] => ([], none)
  | x :: xs =>
    if x = c then ([], some xs)
    else
      let r := break_at c xs
      (x :: r.1, r.2)

/-- Python `str.split(c)`: split into the (always non-empty) list of
fields between occurrences of `c`. -/
def split_all (c : Char) (l : List Char) : List (List Char) :=
  l.foldr
    (fun ch acc =>
      match acc with
      | [] => [[ch]]
      | g :: gs => if ch = c then [] :: g :: gs else (ch :: g) :: gs)
    [[]]

/-- The query component of a URL as computed by `urlparse`: drop the
fragment (everything from the first `#`), then take everything after the
first `?` of what remains (or `""` when there is no `?`). -/
def query_of_url (u : String) : String :=
  let noFrag := (break_at '#' u.data).1
  match break_at '?' noFrag with
  | (_, none) => ""
  | (_, some rest) => String.mk rest

/-- `parse_qs(query).get("list")`, first value: split the query on `&`,
split each field at its first `=`, drop fields without `=` and fields with
an empty value (parse_qs defaults: no blank values, no strict parsing),
and return the first value whose key is `list`. -/
def parse_qs_list_value (query : String) : Option String :=
  let pairs := (split_all '&' query.data).filterMap (fun f =>
    match break_at '=' f with
    | (_, none) => none
    | (k, some v) => if v = [] then none else some (String.mk k, String.mk v))
  ((pairs.filter (fun p => p.1 = "list")).head?).map Prod.snd

/-- `parse_playlist_id_from_url` (source lines 43-48):
`(parse_qs(urlparse(u).query).get("list") or [None])[0]`.  The enclosing
`except` branch is not modelled: the splitting above is total. -/
def parse_playlist_id_from_url (u : String) : Option String :=
  parse_qs_list_value (query_of_url u)

/-- One output record.  `playlist_title` / `playlist_id` are attached by
`main` after extraction and default to `""` before that. -/
structure Row where
  index : Nat
  title : String
  channel : String
  duration : String
  url : String
  id : String
  playlist_title : String := ""
  playlist_id : String := ""
deriving DecidableEq, Repr

/-- One entry dict as returned by yt-dlp, restricted to the keys the
program reads.  A missing string key and an empty value are both encoded
as `""` (the program only ever reads them through `or` chains, which
identify the two). -/
structure Entry where
  id : String := ""
  url : String := ""
  webpage_url : String := ""
  title : String := ""
  uploader : String := ""
  channel : String := ""
  duration : Option Nat := none
  playlist_index : Option Nat := none
deriving DecidableEq, Repr

/-- The playlist-level info dict returned by one `extract_info` call:
its own scalar keys (`self`, also used as the single entry when the
`entries` key is absent in full mode) and the optional `entries` key
(`none` = key absent; a falsy present value is encoded by `some []`).
A falsy (missing) entry of the list is `none`. -/
structure PlaylistInfo where
  self : Entry
  entries : Option (List (Option Entry)) := none
deriving DecidableEq, Repr

/-- The exceptions the embedded fragment can raise. -/
inductive ExtractErr where
  | fileNotFound (msg : String)
  | runtimeError (msg : String)
deriving DecidableEq, Repr

/-- The yt-dlp option dict, restricted to the keys that vary between the
three call sites (the constant keys `quiet`, `skip_download`,
`ignoreerrors`, `no_warnings`, `cachedir` and enrich_one's
`extractor_args` are the same on every run and are omitted). -/
structure YdlOpts where
  extract_flat : Bool
  cookiefile : Option String := none
  playlist_items : Option String := none
deriving DecidableEq, Repr

/-- Option construction of `extract_playlist_flat` (source lines 113-126):
a truthy cookies path whose file does not exist raises FileNotFoundError
before anything else. -/
def flat_ydl_opts (cookies : Option String) (cookiesExists : Bool)
    (playlist_items : Option String) : Except ExtractErr YdlOpts :=
  if py_truthy_str cookies && !cookiesExists then
    .error (.fileNotFound ("Cookies file not found: " ++ cookies.getD ""))
  else
    .ok { extract_flat := true
          cookiefile := if py_truthy_str cookies then cookies else none
          playlist_items := if py_truthy_str playlist_items then playlist_items else none }

/-- Option construction of `extract_playlist_full` (source lines 182-193):
no existence check on the cookies path. -/
def full_ydl_opts (cookies : Option String) (playlist_items : Option String) : YdlOpts :=
  { extract_flat := false
    cookiefile := if py_truthy_str cookies then cookies else none
    playlist_items := if py_truthy_str playlist_items then playlist_items else none }

/-- Option construction of `enrich_one` (source lines 154-169): no
existence check on the cookies path. -/
def enrich_ydl_opts (cookies : Option String) : YdlOpts :=
  { extract_flat := false
    cookiefile := if py_truthy_str cookies then cookies else none }

/-- The placeholder row built for a falsy entry, with the 1-based loop
counter as index (source lines 138 and 210). -/
def unavailable_row (i : Nat) : Row :=
  { index := i, title := "[Unavailable]", channel := "", duration := "", url := "", id := "" }

/-- `https://www.youtube.com/watch?v=` fallback URL. -/
def watch_url (vid : String) : String := "https://www.youtube.com/watch?v=" ++ vid

/-- One loop iteration of `extract_playlist_flat` (source lines 136-149);
`i` is the 1-based position from `enumerate(entries, start=1)`. -/
def flat_row (i : Nat) (e : Option Entry) : Row :=
  match e with
  | none => unavailable_row i
  | some e =>
    let vid_id := py_or e.id ""
    { index := py_or_nat e.playlist_index i
      title := py_or e.title ""
      channel := py_or e.uploader (py_or e.channel "")
      duration := duration_field e.duration
      url := py_or e.url (py_or e.webpage_url (if vid_id != "" then watch_url vid_id else ""))
      id := vid_id }

/-- One loop iteration of `extract_playlist_full` (source lines 208-221):
like `flat_row` but the URL falls back from `webpage_url` only. -/
def full_row (i : Nat) (e : Option Entry) : Row :=
  match e with
  | none => unavailable_row i
  | some e =>
    let vid_id := py_or e.id ""
    { index := py_or_nat e.playlist_index i
      title := py_or e.title ""
      channel := py_or e.uploader (py_or e.channel "")
      duration := duration_field e.duration
      url := py_or e.webpage_url (if vid_id != "" then watch_url vid_id else "")
      id := vid_id }

/-- `enumerate(l, start=n)`. -/
def enum_from (n : Nat) : List α → List (Nat × α)
  | [] => []
  | x :: xs => (n, x) :: enum_from (n + 1) xs

/-- The row list built by the flat extraction loop. -/
def flat_rows (entries : List (Option Entry)) : List Row :=
  (enum_from 1 entries).map (fun p => flat_row p.1 p.2)

/-- The row list built by the full extraction loop. -/
def full_rows (entries : List (Option Entry)) : List Row :=
  (enum_from 1 entries).map (fun p => full_row p.1 p.2)

/-- `extract_playlist_flat` (source lines 111-150).  `resp` is the backend
response of `ydl.extract_info` (`none` = it returned None), `cookiesExists`
is the filesystem answer for the cookies path. -/
def extract_playlist_flat (playlist_url : String) (cookies : Option String)
    (cookiesExists : Bool) (playlist_items : Option String)
    (resp : Option PlaylistInfo) : Except ExtractErr (String × String × List Row) :=
  match flat_ydl_opts cookies cookiesExists playlist_items with
  | .error e => .error e
  | .ok _opts =>
    match resp with
    | none => .error (.runtimeError "Failed to fetch playlist info (flat).")
    | some info =>
      let title := py_or info.self.title "Playlist"
      let pid := py_or info.self.id ((parse_playlist_id_from_url playlist_url).getD "")
      let entries := info.entries.getD []
      .ok (title, pid, flat_rows entries)

/-- `extract_playlist_full` (source lines 180-222).  When the `entries` key
is absent the info dict itself is the single entry ("Single video"). -/
def extract_playlist_full (playlist_url : String) (cookies : Option String)
    (playlist_items : Option String) (resp : Option PlaylistInfo) :
    Except ExtractErr (String × String × List Row) :=
  let _opts := full_ydl_opts cookies playlist_items
  match resp with
  | none => .error (.runtimeError "Failed to fetch playlist info.")
  | some info =>
    let pid := py_or info.self.id ((parse_playlist_id_from_url playlist_url).getD "")
    match info.entries with
    | none =>
      let title := py_or info.self.title "Single video"
      .ok (title, pid, full_rows [some info.self])
    | some es =>
      let title := py_or info.self.title "Playlist"
      .ok (title, pid, full_rows es)

/-- The dict returned by `enrich_one`. -/
structure EnrichResult where
  channel : String
  duration : String
deriving DecidableEq, Repr

/-- `enrich_one` (source lines 152-178).  `backend` is the outcome of
`ydl.extract_info(url)`: `.error ()` = it raised (the bare `except` returns
the empty dict), `.ok none` = it returned None (then `v.get` raises an
AttributeError that propagates out of `enrich_one`), `.ok (some v)` = it
returned the video dict `v`. -/
def enrich_one (url : String) (cookies : Option String)
    (backend : Except Unit (Option Entry)) : Except Unit EnrichResult :=
  let _opts := enrich_ydl_opts cookies
  match backend with
  | .error _ => .ok { channel := "", duration := "" }
  | .ok none => .error ()
  | .ok (some v) =>
    .ok { channel := py_or v.uploader (py_or v.channel "")
          duration := duration_field v.duration }

/-- `to_enrich` (source line 226): the enumerated rows with a missing
channel or duration. -/
def hybrid_to_enrich (rows : List Row) : List (Nat × Row) :=
  (enum_from 0 rows).filter (fun p => p.2.channel == "" || p.2.duration == "")

/-- The tasks actually submitted to the pool (source lines 231-234): the
`to_enrich` pairs whose row has a truthy url. -/
def hybrid_submitted (rows : List Row) : List (Nat × Row) :=
  (hybrid_to_enrich rows).filter (fun p => p.2.url != "")

/-- The `extra` dict obtained from one completed future (source lines
237-240): the result of `enrich_one` on the submitted row's url, with any
escaping exception replaced by the empty dict. -/
def hybrid_extra (cookies : Option String) (backend : Nat → Except Unit (Option Entry))
    (r : Row) (idx : Nat) : EnrichResult :=
  match enrich_one r.url cookies (backend idx) with
  | .ok extra => extra
  | .error _ => { channel := "", duration := "" }

/-- The first in-place update statement (source lines 241-242): overwrite
`channel` only when the fetched value is truthy and the current value is
falsy. -/
def update_channel (r : Row) (extra : EnrichResult) : Row :=
  if extra.channel ≠ "" ∧ r.channel = "" then { r with channel := extra.channel } else r

/-- The second in-place update statement (source lines 243-244), reading
the row as left by the first one. -/
def update_row (r : Row) (extra : EnrichResult) : Row :=
  if extra.duration ≠ "" ∧ (update_channel r extra).duration = "" then
    { update_channel r extra with duration := extra.duration }
  else update_channel r extra

/-- Apply the update of one completed future to the row list. -/
def apply_update (rows : List Row) (idx : Nat) (extra : EnrichResult) : List Row :=
  match rows[idx]? with
  | none => rows
  | some r => rows.set idx (update_row r extra)

/-- One iteration of the `as_completed` loop for the future submitted as
`p = (idx, row)`. -/
def hybrid_apply (cookies : Option String) (backend : Nat → Except Unit (Option Entry))
    (rows : List Row) (p : Nat × Row) : List Row :=
  apply_update rows p.1 (hybrid_extra cookies backend p.2 p.1)

/-- `hybrid_enrich` (source lines 224-245).  `backend` gives the
`extract_info` outcome of the task submitted for row index `idx`;
`order` is the completion order of `as_completed` - the intended
instantiation is any permutation of `hybrid_submitted rows`.  (The
`workers` argument only sizes the pool and does not appear in the
data flow.) -/
def hybrid_enrich (rows : List Row) (cookies : Option String)
    (backend : Nat → Except Unit (Option Entry)) (order : List (Nat × Row)) : List Row :=
  if (hybrid_to_enrich rows).isEmpty then rows
  else order.foldl (hybrid_apply cookies backend) rows

/-- The line filter of `read_playlist_inputs` (source lines 254-258): strip
each line, keep it when non-blank and not a `#` comment. -/
def filter_list_lines (ls : List String) : List String :=
  ls.filterMap (fun line =>
    let s := py_strip line
    if s != "" && !(py_startswith s "#") then some s else none)

/-- The seen-set de-duplication of `read_playlist_inputs` (source lines
260-266), keeping the first occurrence of each item. -/
def dedup_first (items : List String) : List String :=
  (items.foldl
    (fun (st : List String × List String) it =>
      if it ∈ st.2 then st else (st.1 ++ [it], it :: st.2))
    ([], [])).1

/-- Recursive restatement of the seen-set loop of `dedup_first`, used to
express what it computes. -/
def dedup_first_spec (seen : List String) : List String → List String
  | [] => []
  | x :: xs =>
    if x ∈ seen then dedup_first_spec seen xs
    else x :: dedup_first_spec (x :: seen) xs

/-- `read_playlist_inputs` (source lines 247-266).  `playlists` are the
positional arguments, `listArg` the `--list` argument, `listExists` the
filesystem answer for it and `listLines` the lines of the list file. -/
def read_playlist_inputs (playlists : List String) (listArg : Option String)
    (listExists : Bool) (listLines : List String) : Except ExtractErr (List String) :=
  let items := playlists
  if py_truthy_str listArg then
    if !listExists then
      .error (.fileNotFound ("List file not found: " ++ listArg.getD ""))
    else
      .ok (dedup_first (items ++ filter_list_lines listLines))
  else
    .ok (dedup_first items)

/-- The dedupe key of one row (source lines 313-314): the video id,
falling back to the url. -/
def row_key (r : Row) : String := py_or r.id r.url

/-- The `--dedupe` pass of `main` (source lines 309-318): keep a row only
when its key is truthy and not seen before. -/
def dedupe_rows (all_rows : List Row) : List Row :=
  (all_rows.foldl
    (fun (st : List Row × List String) r =>
      let key := row_key r
      if key ≠ "" ∧ key ∉ st.2 then (st.1 ++ [r], key :: st.2) else st)
    ([], [])).1

/-- Recursive restatement of the seen-set loop of `dedupe_rows`. -/
def dedupe_rows_spec (seen : List String) : List Row → List Row
  | [] => []
  | r :: rest =>
    let key := row_key r
    if key ≠ "" ∧ key ∉ seen then r :: dedupe_rows_spec (key :: seen) rest
    else dedupe_rows_spec seen rest

/-- The `defaultdict(list)` grouping key lookup used by save_txt / save_md:
append `r` to the group of key `k`, creating the group at the end on first
occurrence (Python dict insertion order). -/
def add_to_group (gs : List ((String × String) × List Row)) (k : String × String) (r : Row) :
    List ((String × String) × List Row) :=
  match gs with
  | [] => [(k, [r])]
  | g :: rest => if g.1 = k then (g.1, g.2 ++ [r]) :: rest else g :: add_to_group rest k r

/-- The grouping shared by `save_txt` (source lines 70-72) and `save_md`
(source lines 84-86): group the rows by `(playlist_title, playlist_id)`. -/
def group_by_playlist (rows : List Row) : List ((String × String) × List Row) :=
  rows.foldl (fun gs r => add_to_group gs (r.playlist_title, r.playlist_id) r) []

/-- The `--format` choices. -/
inductive OutFormat where
  | csv
  | txt
  | md
deriving DecidableEq, Repr

/-- Structured rendering of the single written file: the records of
`save_csv` in writing order, or the subheader groups of `save_txt` /
`save_md` in writing order. -/
inductive FileContent where
  | csvFile (records : List Row)
  | txtFile (groups : List ((String × String) × List Row))
  | mdFile (groups : List ((String × String) × List Row))
deriving DecidableEq, Repr

/-- `save_csv` (source lines 50-65): one record per row, in row order. -/
def save_csv (rows : List Row) : FileContent := .csvFile rows

/-- `save_txt` (source lines 67-78): one `===` subheader per group. -/
def save_txt (rows : List Row) : FileContent := .txtFile (group_by_playlist rows)

/-- `save_md` (source lines 80-99): one `##` subheader per group. -/
def save_md (rows : List Row) : FileContent := .mdFile (group_by_playlist rows)

/-- `write_output` (source lines 101-109): dispatch on the format and
write the one output file (the `os.makedirs` side effect carries no
data and is omitted). -/
def write_output (fmt : OutFormat) (out_path : String) (rows : List Row) :
    String × FileContent :=
  (out_path,
    match fmt with
    | .csv => save_csv rows
    | .txt => save_txt rows
    | .md => save_md rows)

/-- The `--mode` choices. -/
inductive Mode where
  | flat
  | hybrid
  | full
deriving DecidableEq, Repr

/-- The outside-world data consumed while processing one playlist input:
the playlist-level backend response, the per-video backend outcomes of the
hybrid enrichment tasks, and their completion order. -/
structure SourceEnv where
  resp : Option PlaylistInfo
  backend : Nat → Except Unit (Option Entry)
  order : List (Nat × Row)

/-- The try-block of the per-input loop of `main` (source lines 291-298):
the extraction dispatched on the mode. -/
def process_one (mode : Mode) (cookies : Option String) (cookiesExists : Bool)
    (playlist_items : Option String) (src : String) (env : SourceEnv) :
    Except ExtractErr (String × String × List Row) :=
  match mode with
  | .flat => extract_playlist_flat src cookies cookiesExists playlist_items env.resp
  | .hybrid =>
    match extract_playlist_flat src cookies cookiesExists playlist_items env.resp with
    | .error e => .error e
    | .ok (title, pid, rows) => .ok (title, pid, hybrid_enrich rows cookies env.backend env.order)
  | .full => extract_playlist_full src cookies playlist_items env.resp

/-- The annotation loop of `main` (source lines 304-306). -/
def annotate (title pid : String) (rows : List Row) : List Row :=
  rows.map (fun r => { r with playlist_title := title, playlist_id := pid })

/-- The rows one input contributes to `all_rows`: none when its extraction
raised (the `except` prints and continues), its annotated rows otherwise. -/
def contrib (mode : Mode) (cookies : Option String) (cookiesExists : Bool)
    (playlist_items : Option String) (x : String × SourceEnv) : List Row :=
  match process_one mode cookies cookiesExists playlist_items x.1 x.2 with
  | .error _ => []
  | .ok (title, pid, rows) => annotate title pid rows

/-- The accumulation loop of `main` (source lines 289-307). -/
def collect_rows (mode : Mode) (cookies : Option String) (cookiesExists : Bool)
    (playlist_items : Option String) (inputs : List (String × SourceEnv)) : List Row :=
  inputs.foldl
    (fun all_rows x =>
      match process_one mode cookies cookiesExists playlist_items x.1 x.2 with
      | .error _ => all_rows
      | .ok (title, pid, rows) => all_rows ++ annotate title pid rows)
    []

/-- The optional dedupe pass (source lines 309-318). -/
def maybe_dedupe (dedupeFlag : Bool) (rows : List Row) : List Row :=
  if dedupeFlag then dedupe_rows rows else rows

/-- `main` after the inputs have been gathered (source lines 289-320):
collect the rows of every input, optionally dedupe, and write the single
output file. -/
def main_after_inputs (mode : Mode) (cookies : Option String) (cookiesExists : Bool)
    (playlist_items : Option String) (fmt : OutFormat) (out_path : String)
    (dedupeFlag : Bool) (inputs : List (String × SourceEnv)) : String × FileContent :=
  write_output fmt out_path
    (maybe_dedupe dedupeFlag (collect_rows mode cookies cookiesExists playlist_items inputs))

/-- Whether an extraction outcome is a FileNotFoundError. -/
def is_file_not_found {α : Type _} : Except ExtractErr α → Bool
  | .error (.fileNotFound _) => true
  | _ => false

/-- The per-row frame property of the enrichment: everything except an
initially-empty channel / duration is untouched. -/
def RowFrame (r a : Row) : Prop :=
  a.index = r.index ∧ a.title = r.title ∧ a.url = r.url ∧ a.id = r.id
    ∧ a.playlist_title = r.playlist_title ∧ a.playlist_id = r.playlist_id
    ∧ (r.channel ≠ "" → a.channel = r.channel)
    ∧ (r.duration ≠ "" → a.duration = r.duration)

/-- The list-level frame property between the input rows and the current
state of the enrichment loop. -/
def ListFrame (orig cur : List Row) : Prop :=
  cur.length = orig.length
    ∧ ∀ (i : Nat) (r a : Row), orig[i]? = some r → cur[i]? = some a → RowFrame r a

/-! ### List helper lemmas -/

theorem lt_of_getElem?_some {α : Type _} {l : List α} {i : Nat} {a : α}
    (h : l[i]? = some a) : i < l.length := by
  by_contra hc
  rw [List.getElem?_eq_none (by omega)] at h
  exact Option.noConfusion h

theorem list_set_of_getElem? {α : Type _} (l : List α) (i : Nat) (a : α)
    (h : l[i]? = some a) : l.set i a = l := by
  have hlen : i < l.length := lt_of_getElem?_some h
  apply List.ext_getElem?
  intro j
  by_cases hj : j = i
  · subst hj
    rw [List.getElem?_set_self hlen]
    exact h.symm
  · rw [List.getElem?_set_ne (fun hh => hj hh.symm)]

theorem enum_from_length {α : Type _} (n : Nat) (l : List α) :
    (enum_from n l).length = l.length := by
  induction l generalizing n with
  | nil => rfl
  | cons x xs ih => simp [enum_from, ih]

theorem enum_from_getElem? {α : Type _} (n : Nat) (l : List α) (i : Nat) :
    (enum_from n l)[i]? = (l[i]?).map (fun a => (n + i, a)) := by
  induction l generalizing n i with
  | nil => simp [enum_from]
  | cons x xs ih =>
    cases i with
    | zero => simp [enum_from]
    | succ j =>
      simp only [enum_from, List.getElem?_cons_succ, ih (n + 1) j]
      have : n + 1 + j = n + (j + 1) := by omega
      rw [this]

theorem mem_enum_from_le {α : Type _} {n : Nat} {l : List α} {p : Nat × α}
    (h : p ∈ enum_from n l) : n ≤ p.1 := by
  induction l generalizing n with
  | nil => cases h
  | cons x xs ih =>
    rcases List.mem_cons.mp h with h | h
    · subst h; simp
    · exact Nat.le_of_succ_le (ih h)

theorem nodup_map_fst_enum_from {α : Type _} (n : Nat) (l : List α) :
    ((enum_from n l).map Prod.fst).Nodup := by
  induction l generalizing n with
  | nil => simp [enum_from]
  | cons x xs ih =>
    simp only [enum_from, List.map_cons, List.nodup_cons]
    refine ⟨?_, ih (n + 1)⟩
    intro hmem
    rcases List.mem_map.mp hmem with ⟨p, hp, hfst⟩
    have := mem_enum_from_le hp
    omega

/-! ### update_row / apply_update lemmas -/

theorem update_channel_index (r : Row) (e : EnrichResult) :
    (update_channel r e).index = r.index := by
  unfold update_channel; split <;> rfl

theorem update_channel_title (r : Row) (e : EnrichResult) :
    (update_channel r e).title = r.title := by
  unfold update_channel; split <;> rfl

theorem update_channel_url (r : Row) (e : EnrichResult) :
    (update_channel r e).url = r.url := by
  unfold update_channel; split <;> rfl

theorem update_channel_id (r : Row) (e : EnrichResult) :
    (update_channel r e).id = r.id := by
  unfold update_channel; split <;> rfl

theorem update_channel_playlist_title (r : Row) (e : EnrichResult) :
    (update_channel r e).playlist_title = r.playlist_title := by
  unfold update_channel; split <;> rfl

theorem update_channel_playlist_id (r : Row) (e : EnrichResult) :
    (update_channel r e).playlist_id = r.playlist_id := by
  unfold update_channel; split <;> rfl

theorem update_channel_duration (r : Row) (e : EnrichResult) :
    (update_channel r e).duration = r.duration := by
  unfold update_channel; split <;> rfl

theorem update_channel_channel_of_ne (r : Row) (e : EnrichResult) (h : r.channel ≠ "") :
    (update_channel r e).channel = r.channel := by
  unfold update_channel
  rw [if_neg (fun hc => h hc.2)]

theorem update_row_index (r : Row) (e : EnrichResult) :
    (update_row r e).index = r.index := by
  unfold update_row; split <;> simp [update_channel_index]

theorem update_row_title (r : Row) (e : EnrichResult) :
    (update_row r e).title = r.title := by
  unfold update_row; split <;> simp [update_channel_title]

theorem update_row_url (r : Row) (e : EnrichResult) :
    (update_row r e).url = r.url := by
  unfold update_row; split <;> simp [update_channel_url]

theorem update_row_id (r : Row) (e : EnrichResult) :
    (update_row r e).id = r.id := by
  unfold update_row; split <;> simp [update_channel_id]

theorem update_row_playlist_title (r : Row) (e : EnrichResult) :
    (update_row r e).playlist_title = r.playlist_title := by
  unfold update_row; split <;> simp [update_channel_playlist_title]

theorem update_row_playlist_id (r : Row) (e : EnrichResult) :
    (update_row r e).playlist_id = r.playlist_id := by
  unfold update_row; split <;> simp [update_channel_playlist_id]

theorem update_row_channel_of_ne (r : Row) (e : EnrichResult) (h : r.channel ≠ "") :
    (update_row r e).channel = r.channel := by
  unfold update_row
  split <;> simp [update_channel_channel_of_ne r e h]

theorem update_row_duration_of_ne (r : Row) (e : EnrichResult) (h : r.duration ≠ "") :
    (update_row r e).duration = r.duration := by
  unfold update_row
  rw [if_neg (fun hc => h (by rw [← update_channel_duration r e]; exact hc.2))]
  exact update_channel_duration r e

theorem apply_update_length (rows : List Row) (idx : Nat) (e : EnrichResult) :
    (apply_update rows idx e).length = rows.length := by
  unfold apply_update
  cases h : rows[idx]? with
  | none => rfl
  | some r => simp

theorem apply_update_getElem? (rows : List Row) (idx : Nat) (e : EnrichResult) (j : Nat) :
    (apply_update rows idx e)[j]? =
      if j = idx then (rows[j]?).map (fun r => update_row r e) else rows[j]? := by
  unfold apply_update
  cases h : rows[idx]? with
  | none =>
    by_cases hj : j = idx
    · subst hj; simp [h]
    · simp [hj]
  | some r =>
    by_cases hj : j = idx
    · subst hj
      rw [if_pos rfl, List.getElem?_set_self (lt_of_getElem?_some h), h]
      rfl
    · rw [if_neg hj, List.getElem?_set_ne (fun hh => hj hh.symm)]

theorem apply_update_getElem?_ne (rows : List Row) (idx : Nat) (e : EnrichResult)
    (j : Nat) (h : j ≠ idx) : (apply_update rows idx e)[j]? = rows[j]? := by
  rw [apply_update_getElem?, if_neg h]

theorem apply_update_comm (rows : List Row) (i j : Nat) (ei ej : EnrichResult)
    (h : i ≠ j) :
    apply_update (apply_update rows i ei) j ej
      = apply_update (apply_update rows j ej) i ei := by
  apply List.ext_getElem?
  intro k
  simp only [apply_update_getElem?]
  by_cases hkj : k = j <;> by_cases hki : k = i
  · exact absurd (hki.symm.trans hkj) h
  · simp [hkj, hki, Ne.symm h]
  · simp [hkj, hki, h]
  · simp [hkj, hki]

/-! ### Frame lemmas for hybrid_enrich -/

theorem row_frame_refl (r : Row) : RowFrame r r :=
  ⟨rfl, rfl, rfl, rfl, rfl, rfl, fun _ => rfl, fun _ => rfl⟩

theorem row_frame_update (r a : Row) (e : EnrichResult) (hf : RowFrame r a) :
    RowFrame r (update_row a e) := by
  obtain ⟨h1, h2, h3, h4, h5, h6, h7, h8⟩ := hf
  refine ⟨?_, ?_, ?_, ?_, ?_, ?_, ?_, ?_⟩
  · rw [update_row_index, h1]
  · rw [update_row_title, h2]
  · rw [update_row_url, h3]
  · rw [update_row_id, h4]
  · rw [update_row_playlist_title, h5]
  · rw [update_row_playlist_id, h6]
  · intro hc
    have ha := h7 hc
    rw [update_row_channel_of_ne a e (ha ▸ hc), ha]
  · intro hd
    have ha := h8 hd
    rw [update_row_duration_of_ne a e (ha ▸ hd), ha]

theorem list_frame_refl (rows : List Row) : ListFrame rows rows :=
  ⟨rfl, fun _ r a h1 h2 => by
    rw [h1] at h2
    exact (Option.some.injEq .. ▸ h2 : r = a) ▸ row_frame_refl r⟩

theorem list_frame_apply_update (orig cur : List Row) (idx : Nat) (e : EnrichResult)
    (hf : ListFrame orig cur) : ListFrame orig (apply_update cur idx e) := by
  obtain ⟨hlen, hrows⟩ := hf
  refine ⟨by rw [apply_update_length, hlen], ?_⟩
  intro i r a h1 h2
  rw [apply_update_getElem?] at h2
  by_cases hi : i = idx
  · rw [if_pos hi] at h2
    cases hcur : cur[i]? with
    | none => rw [hcur] at h2; exact Option.noConfusion h2
    | some b =>
      rw [hcur] at h2
      have : update_row b e = a := Option.some.injEq .. ▸ h2
      exact this ▸ row_frame_update r b e (hrows i r b h1 hcur)
  · rw [if_neg hi] at h2
    exact hrows i r a h1 h2

theorem list_frame_foldl (orig : List Row) (cookies : Option String)
    (backend : Nat → Except Unit (Option Entry)) (order : List (Nat × Row)) :
    ∀ cur, ListFrame orig cur →
      ListFrame orig (order.foldl (hybrid_apply cookies backend) cur) := by
  induction order with
  | nil => exact fun cur h => h
  | cons p rest ih =>
    intro cur h
    exact ih _ (list_frame_apply_update orig cur p.1 _ h)

theorem hybrid_enrich_frame (rows : List Row) (cookies : Option String)
    (backend : Nat → Except Unit (Option Entry)) (order : List (Nat × Row)) :
    ListFrame rows (hybrid_enrich rows cookies backend order) := by
  unfold hybrid_enrich
  split
  · exact list_frame_refl rows
  · exact list_frame_foldl rows cookies backend order rows (list_frame_refl rows)

/-! ### Order-insensitivity machinery for hybrid_enrich -/

theorem hybrid_submitted_nodup_fst (rows : List Row) :
    ((hybrid_submitted rows).map Prod.fst).Nodup := by
  have hsub : (hybrid_submitted rows).Sublist (enum_from 0 rows) :=
    ((hybrid_to_enrich rows).filter_sublist).trans ((enum_from 0 rows).filter_sublist)
  exact (nodup_map_fst_enum_from 0 rows).sublist (hsub.map Prod.fst)

theorem hybrid_apply_comm (cookies : Option String)
    (backend : Nat → Except Unit (Option Entry)) (p q : Nat × Row)
    (hpq : p = q ∨ p.1 ≠ q.1) (z : List Row) :
    hybrid_apply cookies backend (hybrid_apply cookies backend z p) q
      = hybrid_apply cookies backend (hybrid_apply cookies backend z q) p := by
  rcases hpq with h | h
  · rw [h]
  · exact apply_update_comm z p.1 q.1 _ _ h

theorem hybrid_foldl_perm (cookies : Option String)
    (backend : Nat → Except Unit (Option Entry)) (rows : List Row)
    (order : List (Nat × Row)) (h : order.Perm (hybrid_submitted rows)) (init : List Row) :
    order.foldl (hybrid_apply cookies backend) init
      = (hybrid_submitted rows).foldl (hybrid_apply cookies backend) init := by
  apply h.foldl_eq'
  intro p hp q hq z
  apply hybrid_apply_comm
  by_cases hpq : p = q
  · exact Or.inl hpq
  · refine Or.inr (fun hfst => hpq ?_)
    exact List.inj_on_of_nodup_map (hybrid_submitted_nodup_fst rows)
      (h.mem_iff.mp hp) (h.mem_iff.mp hq) hfst

/-! ### collect_rows lemmas -/

theorem collect_rows_foldl_eq (mode : Mode) (cookies : Option String) (cookiesExists : Bool)
    (playlist_items : Option String) (inputs : List (String × SourceEnv)) :
    ∀ acc : List Row,
      inputs.foldl
        (fun all_rows x =>
          match process_one mode cookies cookiesExists playlist_items x.1 x.2 with
          | .error _ => all_rows
          | .ok (title, pid, rows) => all_rows ++ annotate title pid rows)
        acc
      = acc ++ (inputs.map (contrib mode cookies cookiesExists playlist_items)).flatten := by
  induction inputs with
  | nil => intro acc; simp
  | cons x xs ih =>
    intro acc
    simp only [List.foldl_cons, List.map_cons, List.flatten_cons]
    have hstep :
        (match process_one mode cookies cookiesExists playlist_items x.1 x.2 with
          | .error _ => acc
          | .ok (title, pid, rows) => acc ++ annotate title pid rows)
        = acc ++ contrib mode cookies cookiesExists playlist_items x := by
      unfold contrib
      cases process_one mode cookies cookiesExists playlist_items x.1 x.2 with
      | error e => simp
      | ok t =>
        obtain ⟨title, pid, rows⟩ := t
        rfl
    rw [hstep, ih, List.append_assoc]

theorem collect_rows_eq_flatten (mode : Mode) (cookies : Option String) (cookiesExists : Bool)
    (playlist_items : Option String) (inputs : List (String × SourceEnv)) :
    collect_rows mode cookies cookiesExists playlist_items inputs
      = (inputs.map (contrib mode cookies cookiesExists playlist_items)).flatten := by
  unfold collect_rows
  rw [collect_rows_foldl_eq]
  simp

/-! ### Seen-set dedup lemmas -/

theorem dedup_first_foldl_eq (l : List String) :
    ∀ acc seen : List String,
      (l.foldl
        (fun (st : List String × List String) it =>
          if it ∈ st.2 then st else (st.1 ++ [it], it :: st.2))
        (acc, seen)).1
      = acc ++ dedup_first_spec seen l := by
  induction l with
  | nil => intro acc seen; simp [dedup_first_spec]
  | cons x xs ih =>
    intro acc seen
    simp only [List.foldl_cons, dedup_first_spec]
    by_cases hx : x ∈ seen
    · rw [if_pos hx, if_pos hx, ih]
    · rw [if_neg hx, if_neg hx, ih, List.append_assoc]
      rfl

theorem dedup_first_eq_spec (l : List String) : dedup_first l = dedup_first_spec [] l := by
  unfold dedup_first
  rw [dedup_first_foldl_eq l [] []]
  simp

theorem dedup_first_spec_not_mem_seen (l : List String) :
    ∀ seen, ∀ x ∈ dedup_first_spec seen l, x ∉ seen := by
  induction l with
  | nil => intro seen x hx; cases hx
  | cons y ys ih =>
    intro seen x hx
    unfold dedup_first_spec at hx
    by_cases hy : y ∈ seen
    · rw [if_pos hy] at hx
      exact ih seen x hx
    · rw [if_neg hy] at hx
      rcases List.mem_cons.mp hx with h | h
      · exact h ▸ hy
      · intro hxs
        exact ih (y :: seen) x h (List.mem_cons_of_mem y hxs)

theorem dedup_first_spec_nodup (l : List String) :
    ∀ seen, (dedup_first_spec seen l).Nodup := by
  induction l with
  | nil => intro seen; exact List.nodup_nil
  | cons y ys ih =>
    intro seen
    unfold dedup_first_spec
    by_cases hy : y ∈ seen
    · rw [if_pos hy]; exact ih seen
    · rw [if_neg hy]
      refine List.nodup_cons.mpr ⟨?_, ih (y :: seen)⟩
      intro hmem
      exact dedup_first_spec_not_mem_seen ys (y :: seen) y hmem (List.mem_cons_self y seen)

theorem dedup_first_spec_sublist (l : List String) :
    ∀ seen, (dedup_first_spec seen l).Sublist l := by
  induction l with
  | nil => intro seen; exact List.Sublist.refl []
  | cons y ys ih =>
    intro seen
    unfold dedup_first_spec
    by_cases hy : y ∈ seen
    · rw [if_pos hy]
      exact (ih seen).trans (List.sublist_cons_self y ys)
    · rw [if_neg hy]
      exact (ih (y :: seen)).cons₂ y

/-! ### dedupe_rows lemmas -/

theorem dedupe_rows_foldl_eq (l : List Row) :
    ∀ (acc : List Row) (seen : List String),
      (l.foldl
        (fun (st : List Row × List String) r =>
          let key := row_key r
          if key ≠ "" ∧ key ∉ st.2 then (st.1 ++ [r], key :: st.2) else st)
        (acc, seen)).1
      = acc ++ dedupe_rows_spec seen l := by
  induction l with
  | nil => intro acc seen; simp [dedupe_rows_spec]
  | cons r rest ih =>
    intro acc seen
    simp only [List.foldl_cons, dedupe_rows_spec]
    by_cases hr : row_key r ≠ "" ∧ row_key r ∉ seen
    · rw [if_pos hr, if_pos hr, ih, List.append_assoc]
      rfl
    · rw [if_neg hr, if_neg hr, ih]

theorem dedupe_rows_eq_spec (l : List Row) : dedupe_rows l = dedupe_rows_spec [] l := by
  unfold dedupe_rows
  rw [dedupe_rows_foldl_eq l [] []]
  simp

theorem dedupe_rows_spec_key_not_seen (l : List Row) :
    ∀ seen, ∀ r ∈ dedupe_rows_spec seen l, row_key r ∉ seen ∧ row_key r ≠ "" := by
  induction l with
  | nil => intro seen r hr; cases hr
  | cons x xs ih =>
    intro seen r hr
    unfold dedupe_rows_spec at hr
    by_cases hx : row_key x ≠ "" ∧ row_key x ∉ seen
    · rw [if_pos hx] at hr
      rcases List.mem_cons.mp hr with h | h
      · exact h ▸ ⟨hx.2, hx.1⟩
      · have := ih (row_key x :: seen) r h
        exact ⟨fun hmem => this.1 (List.mem_cons_of_mem _ hmem), this.2⟩
    · rw [if_neg hx] at hr
      exact ih seen r hr

theorem dedupe_rows_spec_nodup_keys (l : List Row) :
    ∀ seen, ((dedupe_rows_spec seen l).map row_key).Nodup := by
  induction l with
  | nil => intro seen; exact List.nodup_nil
  | cons x xs ih =>
    intro seen
    unfold dedupe_rows_spec
    by_cases hx : row_key x ≠ "" ∧ row_key x ∉ seen
    · rw [if_pos hx]
      simp only [List.map_cons, List.nodup_cons]
      refine ⟨?_, ih (row_key x :: seen)⟩
      intro hmem
      rcases List.mem_map.mp hmem with ⟨r, hr, hkey⟩
      exact (dedupe_rows_spec_key_not_seen xs (row_key x :: seen) r hr).1
        (hkey ▸ List.mem_cons_self (row_key x) seen)
    · rw [if_neg hx]
      exact ih seen

theorem dedupe_rows_spec_sublist (l : List Row) :
    ∀ seen, (dedupe_rows_spec seen l).Sublist l := by
  induction l with
  | nil => intro seen; exact List.Sublist.refl []
  | cons x xs ih =>
    intro seen
    unfold dedupe_rows_spec
    by_cases hx : row_key x ≠ "" ∧ row_key x ∉ seen
    · rw [if_pos hx]
      exact (ih (row_key x :: seen)).cons₂ x
    · rw [if_neg hx]
      exact (ih seen).trans (List.sublist_cons_self x xs)

/-! ### Grouping lemmas -/

theorem add_to_group_flatten_perm (gs : List ((String × String) × List Row))
    (k : String × String) (r : Row) :
    (((add_to_group gs k r).map Prod.snd).flatten).Perm
      ((gs.map Prod.snd).flatten ++ [r]) := by
  induction gs with
  | nil => simp [add_to_group]
  | cons g rest ih =>
    unfold add_to_group
    by_cases hg : g.1 = k
    · rw [if_pos hg]
      simp only [List.map_cons, List.flatten_cons, List.append_assoc]
      exact List.perm_append_comm.append_left g.2
    · rw [if_neg hg]
      simp only [List.map_cons, List.flatten_cons, List.append_assoc]
      exact ih.append_left g.2

theorem add_to_group_keys (gs : List ((String × String) × List Row))
    (k : String × String) (r : Row) :
    (add_to_group gs k r).map Prod.fst
      = if k ∈ gs.map Prod.fst then gs.map Prod.fst else gs.map Prod.fst ++ [k] := by
  induction gs with
  | nil => simp [add_to_group]
  | cons g rest ih =>
    unfold add_to_group
    by_cases hg : g.1 = k
    · rw [if_pos hg]
      have hmem : k ∈ (g :: rest).map Prod.fst := by
        simp only [List.map_cons]
        exact hg ▸ List.mem_cons_self g.1 _
      rw [if_pos hmem]
      simp [hg]
    · rw [if_neg hg]
      simp only [List.map_cons, ih]
      by_cases hk : k ∈ rest.map Prod.fst
      · rw [if_pos hk, if_pos (List.mem_cons_of_mem g.1 hk)]
      · rw [if_neg hk, if_neg ?h, List.cons_append]
        case h =>
          intro hmem
          rcases List.mem_cons.mp hmem with h | h
          · exact hg h.symm
          · exact hk h

theorem add_to_group_keys_nodup (gs : List ((String × String) × List Row))
    (k : String × String) (r : Row) (h : (gs.map Prod.fst).Nodup) :
    ((add_to_group gs k r).map Prod.fst).Nodup := by
  rw [add_to_group_keys]
  by_cases hk : k ∈ gs.map Prod.fst
  · rw [if_pos hk]; exact h
  · rw [if_neg hk]
    rw [List.nodup_append]
    exact ⟨h, List.nodup_singleton k, fun x hx hx1 => hk ((List.mem_singleton.mp hx1) ▸ hx)⟩

theorem group_by_playlist_foldl_invariant (rows : List Row) :
    ∀ gs : List ((String × String) × List Row),
      ((((rows.foldl (fun gs r => add_to_group gs (r.playlist_title, r.playlist_id) r) gs).map
        Prod.snd).flatten).Perm ((gs.map Prod.snd).flatten ++ rows))
      ∧ ((gs.map Prod.fst).Nodup →
          (((rows.foldl (fun gs r => add_to_group gs (r.playlist_title, r.playlist_id) r)
            gs).map Prod.fst).Nodup)) := by
  induction rows with
  | nil => intro gs; exact ⟨by simp, fun h => h⟩
  | cons r rest ih =>
    intro gs
    simp only [List.foldl_cons]
    constructor
    · have h1 := (ih (add_to_group gs (r.playlist_title, r.playlist_id) r)).1
      have h2 : ((((add_to_group gs (r.playlist_title, r.playlist_id) r).map
            Prod.snd).flatten ++ rest).Perm
          (((gs.map Prod.snd).flatten ++ [r]) ++ rest)) :=
        (add_to_group_flatten_perm gs (r.playlist_title, r.playlist_id) r).append_right rest
      have h3 := h1.trans h2
      have heq : ((gs.map Prod.snd).flatten ++ [r]) ++ rest
          = (gs.map Prod.snd).flatten ++ (r :: rest) := by
        rw [List.append_assoc]
        rfl
      exact heq ▸ h3
    · intro h
      exact (ih (add_to_group gs (r.playlist_title, r.playlist_id) r)).2
        (add_to_group_keys_nodup gs (r.playlist_title, r.playlist_id) r h)

theorem group_by_playlist_flatten_perm (rows : List Row) :
    (((group_by_playlist rows).map Prod.snd).flatten).Perm rows := by
  have h := (group_by_playlist_foldl_invariant rows []).1
  simpa [group_by_playlist] using h

theorem group_by_playlist_keys_nodup (rows : List Row) :
    ((group_by_playlist rows).map Prod.fst).Nodup := by
  have h := (group_by_playlist_foldl_invariant rows []).2
  simpa [group_by_playlist] using h List.nodup_nil

/-! ### Claim theorems -/

/-- C1: for every playlist input processed in main, the extraction is
determined by the three-tier mode: the collected rows are the per-input
contributions in order, and the contribution of one input is exactly one
flat extraction for mode flat, the same flat extraction followed by
hybrid_enrich on its rows for mode hybrid, and exactly one full
extraction for mode full. -/
theorem C1_mode_dispatch (cookies : Option String) (cookiesExists : Bool)
    (playlist_items : Option String) (inputs : List (String × SourceEnv))
    (x : String × SourceEnv) :
    (∀ mode : Mode, collect_rows mode cookies cookiesExists playlist_items inputs
        = (inputs.map (contrib mode cookies cookiesExists playlist_items)).flatten)
    ∧ contrib .flat cookies cookiesExists playlist_items x
        = (match extract_playlist_flat x.1 cookies cookiesExists playlist_items x.2.resp with
            | .error _ => []
            | .ok (title, pid, rows) => annotate title pid rows)
    ∧ contrib .hybrid cookies cookiesExists playlist_items x
        = (match extract_playlist_flat x.1 cookies cookiesExists playlist_items x.2.resp with
            | .error _ => []
            | .ok (title, pid, rows) =>
                annotate title pid (hybrid_enrich rows cookies x.2.backend x.2.order))
    ∧ contrib .full cookies cookiesExists playlist_items x
        = (match extract_playlist_full x.1 cookies playlist_items x.2.resp with
            | .error _ => []
            | .ok (title, pid, rows) => annotate title pid rows) := by
  refine ⟨fun mode => collect_rows_eq_flatten mode cookies cookiesExists playlist_items inputs,
    ?_, ?_, ?_⟩
  · unfold contrib process_one
    cases hx : extract_playlist_flat x.1 cookies cookiesExists playlist_items x.2.resp with
    | error e => rfl
    | ok t => obtain ⟨title, pid, rows⟩ := t; rfl
  · unfold contrib process_one
    cases hx : extract_playlist_flat x.1 cookies cookiesExists playlist_items x.2.resp with
    | error e => rfl
    | ok t => obtain ⟨title, pid, rows⟩ := t; rfl
  · unfold contrib process_one
    cases hx : extract_playlist_full x.1 cookies playlist_items x.2.resp with
    | error e => rfl
    | ok t => obtain ⟨title, pid, rows⟩ := t; rfl

/-- C4: a playlist input whose extraction raises contributes no rows,
earlier and later inputs are unaffected, and the final write still
happens, on the remaining rows. -/
theorem C4_catch_and_skip (mode : Mode) (cookies : Option String) (cookiesExists : Bool)
    (playlist_items : Option String) (fmt : OutFormat) (out_path : String)
    (dedupeFlag : Bool) (pre post : List (String × SourceEnv)) (src : String)
    (env : SourceEnv) (e : ExtractErr)
    (h : process_one mode cookies cookiesExists playlist_items src env = .error e) :
    collect_rows mode cookies cookiesExists playlist_items (pre ++ (src, env) :: post)
      = collect_rows mode cookies cookiesExists playlist_items pre
        ++ collect_rows mode cookies cookiesExists playlist_items post
    ∧ main_after_inputs mode cookies cookiesExists playlist_items fmt out_path dedupeFlag
        (pre ++ (src, env) :: post)
      = main_after_inputs mode cookies cookiesExists playlist_items fmt out_path dedupeFlag
        (pre ++ post) := by
  have hc : contrib mode cookies cookiesExists playlist_items (src, env) = [] := by
    unfold contrib
    rw [h]
  have h1 : collect_rows mode cookies cookiesExists playlist_items (pre ++ (src, env) :: post)
      = collect_rows mode cookies cookiesExists playlist_items pre
        ++ collect_rows mode cookies cookiesExists playlist_items post := by
    rw [collect_rows_eq_flatten, collect_rows_eq_flatten, collect_rows_eq_flatten,
      List.map_append, List.map_cons, List.flatten_append, List.flatten_cons, hc]
    rfl
  have h2 : collect_rows mode cookies cookiesExists playlist_items (pre ++ post)
      = collect_rows mode cookies cookiesExists playlist_items pre
        ++ collect_rows mode cookies cookiesExists playlist_items post := by
    rw [collect_rows_eq_flatten, collect_rows_eq_flatten, collect_rows_eq_flatten,
      List.map_append, List.flatten_append]
  refine ⟨h1, ?_⟩
  unfold main_after_inputs
  rw [h1, h2]

/-- Witness for C4 at a concrete skipped input: a flat extraction whose
backend returned None raises, contributes nothing, and the write still
happens. -/
theorem C4_witness :
    collect_rows .flat none true none
        ([] ++ ("u", ⟨none, fun _ => .error (), []⟩) :: [("v", ⟨some ⟨{ id := "x" }, some []⟩, fun _ => .error (), []⟩)])
      = collect_rows .flat none true none []
        ++ collect_rows .flat none true none
          [("v", ⟨some ⟨{ id := "x" }, some []⟩, fun _ => .error (), []⟩)]
    ∧ main_after_inputs .flat none true none .csv "playlists.csv" false
        ([] ++ ("u", ⟨none, fun _ => .error (), []⟩) :: [("v", ⟨some ⟨{ id := "x" }, some []⟩, fun _ => .error (), []⟩)])
      = main_after_inputs .flat none true none .csv "playlists.csv" false
        ([] ++ [("v", ⟨some ⟨{ id := "x" }, some []⟩, fun _ => .error (), []⟩)]) :=
  C4_catch_and_skip .flat none true none .csv "playlists.csv" false
    [] [("v", ⟨some ⟨{ id := "x" }, some []⟩, fun _ => .error (), []⟩)] "u"
    ⟨none, fun _ => .error (), []⟩ (.runtimeError "Failed to fetch playlist info (flat).")
    rfl

/-- C2: hybrid_enrich returns a list of the same length and order, fills a
channel / duration only when it was empty before the call (a non-empty one
is never overwritten), and leaves index, title, url and id (and the
playlist annotation fields) of every row unchanged. -/
theorem C2_enrich_frame (rows : List Row) (cookies : Option String)
    (backend : Nat → Except Unit (Option Entry)) (order : List (Nat × Row)) :
    (hybrid_enrich rows cookies backend order).length = rows.length
    ∧ ∀ (i : Nat) (r a : Row), rows[i]? = some r →
        (hybrid_enrich rows cookies backend order)[i]? = some a →
          a.index = r.index ∧ a.title = r.title ∧ a.url = r.url ∧ a.id = r.id
            ∧ a.playlist_title = r.playlist_title ∧ a.playlist_id = r.playlist_id
            ∧ (r.channel ≠ "" → a.channel = r.channel)
            ∧ (r.duration ≠ "" → a.duration = r.duration) :=
  hybrid_enrich_frame rows cookies backend order

/-- Witness for C2 at concrete inputs: one row with a channel already set
and an enrichment that would overwrite it; the row keeps its channel and
gains only the missing duration. -/
theorem C2_witness :
    (hybrid_enrich
        [{ index := 1, title := "t", channel := "c0", duration := "", url := "https://u", id := "v" }]
        none
        (fun _ => .ok (some { uploader := "other", duration := some 61 }))
        [(0, { index := 1, title := "t", channel := "c0", duration := "", url := "https://u", id := "v" })]).length
      = 1
    ∧ ({ index := 1, title := "t", channel := "c0", duration := "0:01:01", url := "https://u", id := "v" } : Row).index
        = ({ index := 1, title := "t", channel := "c0", duration := "", url := "https://u", id := "v" } : Row).index
    ∧ (({ index := 1, title := "t", channel := "c0", duration := "", url := "https://u", id := "v" } : Row).channel ≠ ""
        → ({ index := 1, title := "t", channel := "c0", duration := "0:01:01", url := "https://u", id := "v" } : Row).channel
            = ({ index := 1, title := "t", channel := "c0", duration := "", url := "https://u", id := "v" } : Row).channel) := by
  have h := C2_enrich_frame
    [{ index := 1, title := "t", channel := "c0", duration := "", url := "https://u", id := "v" }]
    none
    (fun _ => .ok (some { uploader := "other", duration := some 61 }))
    [(0, { index := 1, title := "t", channel := "c0", duration := "", url := "https://u", id := "v" })]
  have h2 := h.2 0
    { index := 1, title := "t", channel := "c0", duration := "", url := "https://u", id := "v" }
    { index := 1, title := "t", channel := "c0", duration := "0:01:01", url := "https://u", id := "v" }
    rfl (by decide)
  exact ⟨h.1, h2.1, h2.2.2.2.2.2.2.1⟩

/-- C3: the result of hybrid_enrich does not depend on the completion
order of the fetches: the submitted tasks carry pairwise distinct row
indices, and any two completion orders (permutations of the submitted
tasks) produce the same final row list. -/
theorem C3_order_insensitive (rows : List Row) (cookies : Option String)
    (backend : Nat → Except Unit (Option Entry)) (order1 order2 : List (Nat × Row))
    (h1 : order1.Perm (hybrid_submitted rows)) (h2 : order2.Perm (hybrid_submitted rows)) :
    ((hybrid_submitted rows).map Prod.fst).Nodup
    ∧ hybrid_enrich rows cookies backend order1 = hybrid_enrich rows cookies backend order2 := by
  refine ⟨hybrid_submitted_nodup_fst rows, ?_⟩
  unfold hybrid_enrich
  split
  · rfl
  · rw [hybrid_foldl_perm cookies backend rows order1 h1 rows,
      hybrid_foldl_perm cookies backend rows order2 h2 rows]

/-- Witness for C3: two rows both needing enrichment, processed in the two
opposite completion orders, give the same result. -/
theorem C3_witness :
    ((hybrid_submitted
        [{ index := 1, title := "a", channel := "", duration := "", url := "https://a", id := "ida" },
         { index := 2, title := "b", channel := "", duration := "", url := "https://b", id := "idb" }]).map
      Prod.fst).Nodup
    ∧ hybrid_enrich
        [{ index := 1, title := "a", channel := "", duration := "", url := "https://a", id := "ida" },
         { index := 2, title := "b", channel := "", duration := "", url := "https://b", id := "idb" }]
        none
        (fun idx => if idx = 0 then .ok (some { uploader := "ua" }) else .ok (some { uploader := "ub" }))
        [(0, { index := 1, title := "a", channel := "", duration := "", url := "https://a", id := "ida" }),
         (1, { index := 2, title := "b", channel := "", duration := "", url := "https://b", id := "idb" })]
      = hybrid_enrich
        [{ index := 1, title := "a", channel := "", duration := "", url := "https://a", id := "ida" },
         { index := 2, title := "b", channel := "", duration := "", url := "https://b", id := "idb" }]
        none
        (fun idx => if idx = 0 then .ok (some { uploader := "ua" }) else .ok (some { uploader := "ub" }))
        [(1, { index := 2, title := "b", channel := "", duration := "", url := "https://b", id := "idb" }),
         (0, { index := 1, title := "a", channel := "", duration := "", url := "https://a", id := "ida" })] :=
  C3_order_insensitive
    [{ index := 1, title := "a", channel := "", duration := "", url := "https://a", id := "ida" },
     { index := 2, title := "b", channel := "", duration := "", url := "https://b", id := "idb" }]
    none
    (fun idx => if idx = 0 then .ok (some { uploader := "ua" }) else .ok (some { uploader := "ub" }))
    [(0, { index := 1, title := "a", channel := "", duration := "", url := "https://a", id := "ida" }),
     (1, { index := 2, title := "b", channel := "", duration := "", url := "https://b", id := "idb" })]
    [(1, { index := 2, title := "b", channel := "", duration := "", url := "https://b", id := "idb" }),
     (0, { index := 1, title := "a", channel := "", duration := "", url := "https://a", id := "ida" })]
    (by decide) (by decide)

/-- C5: the per-video fetch is best-effort: when the underlying extraction
raises, enrich_one returns the empty dict instead of propagating, and in
hybrid_enrich such an empty result leaves the corresponding row exactly as
it was. -/
theorem C5_best_effort (url : String) (cookies : Option String) (rs : List Row)
    (idx : Nat) (r : Row) (backend : Nat → Except Unit (Option Entry))
    (hb : backend idx = .error ()) :
    enrich_one url cookies (.error ()) = .ok { channel := "", duration := "" }
    ∧ hybrid_extra cookies backend r idx = { channel := "", duration := "" }
    ∧ update_row r { channel := "", duration := "" } = r
    ∧ hybrid_apply cookies backend rs (idx, r) = rs := by
  have hextra : hybrid_extra cookies backend r idx = { channel := "", duration := "" } := by
    unfold hybrid_extra enrich_one
    rw [hb]
  have hupd : ∀ a : Row, update_row a { channel := "", duration := "" } = a := by
    intro a
    unfold update_row update_channel
    simp
  refine ⟨rfl, hextra, hupd r, ?_⟩
  unfold hybrid_apply
  rw [hextra]
  unfold apply_update
  cases hrs : rs[idx]? with
  | none => rfl
  | some a =>
    show rs.set idx (update_row a { channel := "", duration := "" }) = rs
    rw [hupd a]
    exact list_set_of_getElem? rs idx a hrs

/-- Witness for C5: a backend that raises on the fetched index leaves a
concrete row list untouched. -/
theorem C5_witness :
    enrich_one "https://u" none (.error ()) = .ok { channel := "", duration := "" }
    ∧ hybrid_extra none (fun _ => .error ())
        { index := 1, title := "t", channel := "", duration := "", url := "https://u", id := "v" } 0
      = { channel := "", duration := "" }
    ∧ update_row { index := 1, title := "t", channel := "", duration := "", url := "https://u", id := "v" }
        { channel := "", duration := "" }
      = { index := 1, title := "t", channel := "", duration := "", url := "https://u", id := "v" }
    ∧ hybrid_apply none (fun _ => .error ())
        [{ index := 1, title := "t", channel := "", duration := "", url := "https://u", id := "v" }]
        (0, { index := 1, title := "t", channel := "", duration := "", url := "https://u", id := "v" })
      = [{ index := 1, title := "t", channel := "", duration := "", url := "https://u", id := "v" }] :=
  C5_best_effort "https://u" none
    [{ index := 1, title := "t", channel := "", duration := "", url := "https://u", id := "v" }]
    0 { index := 1, title := "t", channel := "", duration := "", url := "https://u", id := "v" }
    (fun _ => .error ()) rfl

/-- C6 counterexample: the claim says dedupe keeps every row that is not a
duplicate of an earlier one, but a row whose id and url are both empty
(the `[Unavailable]` placeholder) has a falsy key and is dropped even
though it duplicates nothing: on the one-element input the output is
empty. -/
theorem C6_counterexample :
    dedupe_rows [unavailable_row 1] = []
    ∧ dedupe_rows [unavailable_row 1] ≠ [unavailable_row 1] := by
  decide

/-- C6 (amended): with `--dedupe`, among the rows with a non-empty key
(id, falling back to url) the first occurrence of each key is kept and
every later row with the same key is removed; rows whose id and url are
both empty are dropped entirely; the kept rows appear in their original
order.  Formally: dedupe_rows equals the seen-set recursion, its result is
a sublist of the input (first occurrences, order preserved), its keys are
pairwise distinct, and every kept row has a non-empty key. -/
theorem C6_dedupe (rows : List Row) :
    dedupe_rows rows = dedupe_rows_spec [] rows
    ∧ (dedupe_rows rows).Sublist rows
    ∧ ((dedupe_rows rows).map row_key).Nodup
    ∧ ∀ r ∈ dedupe_rows rows, row_key r ≠ "" := by
  refine ⟨dedupe_rows_eq_spec rows, ?_, ?_, ?_⟩
  · rw [dedupe_rows_eq_spec]
    exact dedupe_rows_spec_sublist rows []
  · rw [dedupe_rows_eq_spec]
    exact dedupe_rows_spec_nodup_keys rows []
  · rw [dedupe_rows_eq_spec]
    intro r hr
    exact (dedupe_rows_spec_key_not_seen rows [] r hr).2

/-- Witness for C6 (amended) at a concrete list: a duplicate id is
removed, a url-keyed row is kept, and the keyless placeholder is
dropped. -/
theorem C6_witness :
    dedupe_rows
        [{ index := 1, title := "a", channel := "", duration := "", url := "https://a", id := "ida" },
         unavailable_row 2,
         { index := 3, title := "b", channel := "", duration := "", url := "https://b", id := "" },
         { index := 4, title := "a2", channel := "", duration := "", url := "https://a2", id := "ida" }]
      = dedupe_rows_spec []
        [{ index := 1, title := "a", channel := "", duration := "", url := "https://a", id := "ida" },
         unavailable_row 2,
         { index := 3, title := "b", channel := "", duration := "", url := "https://b", id := "" },
         { index := 4, title := "a2", channel := "", duration := "", url := "https://a2", id := "ida" }]
    ∧ (dedupe_rows
        [{ index := 1, title := "a", channel := "", duration := "", url := "https://a", id := "ida" },
         unavailable_row 2,
         { index := 3, title := "b", channel := "", duration := "", url := "https://b", id := "" },
         { index := 4, title := "a2", channel := "", duration := "", url := "https://a2", id := "ida" }]).Sublist
        [{ index := 1, title := "a", channel := "", duration := "", url := "https://a", id := "ida" },
         unavailable_row 2,
         { index := 3, title := "b", channel := "", duration := "", url := "https://b", id := "" },
         { index := 4, title := "a2", channel := "", duration := "", url := "https://a2", id := "ida" }] :=
  ⟨(C6_dedupe
      [{ index := 1, title := "a", channel := "", duration := "", url := "https://a", id := "ida" },
       unavailable_row 2,
       { index := 3, title := "b", channel := "", duration := "", url := "https://b", id := "" },
       { index := 4, title := "a2", channel := "", duration := "", url := "https://a2", id := "ida" }]).1,
   (C6_dedupe
      [{ index := 1, title := "a", channel := "", duration := "", url := "https://a", id := "ida" },
       unavailable_row 2,
       { index := 3, title := "b", channel := "", duration := "", url := "https://b", id := "" },
       { index := 4, title := "a2", channel := "", duration := "", url := "https://a2", id := "ida" }]).2.1⟩

/-- C7: every run writes exactly one file (write_output returns the single
written path / content pair): the csv content is one record per collected
row in input order, and the txt / md contents carry one subheader group
per distinct (playlist_title, playlist_id) pair whose items, taken
together, are exactly the collected rows (each appearing once). -/
theorem C7_single_file (out_path : String) (rows : List Row) :
    write_output .csv out_path rows = (out_path, .csvFile rows)
    ∧ write_output .txt out_path rows = (out_path, .txtFile (group_by_playlist rows))
    ∧ write_output .md out_path rows = (out_path, .mdFile (group_by_playlist rows))
    ∧ (((group_by_playlist rows).map Prod.snd).flatten).Perm rows
    ∧ ((group_by_playlist rows).map Prod.fst).Nodup :=
  ⟨rfl, rfl, rfl, group_by_playlist_flatten_perm rows, group_by_playlist_keys_nodup rows⟩

/-- C8: read_playlist_inputs is deterministic and duplicate-free: with a
`--list` file present it returns the positional arguments followed by the
non-blank, non-`#` stripped lines of the file, de-duplicated keeping the
first occurrence (the result has no duplicates and is an order-preserving
sublist of that concatenation). -/
theorem C8_read_inputs (playlists : List String) (listPath : String)
    (listLines : List String) (h : listPath ≠ "") :
    read_playlist_inputs playlists (some listPath) true listLines
      = .ok (dedup_first_spec [] (playlists ++ filter_list_lines listLines))
    ∧ (dedup_first_spec [] (playlists ++ filter_list_lines listLines)).Nodup
    ∧ (dedup_first_spec [] (playlists ++ filter_list_lines listLines)).Sublist
        (playlists ++ filter_list_lines listLines) := by
  refine ⟨?_, dedup_first_spec_nodup _ [], dedup_first_spec_sublist _ []⟩
  unfold read_playlist_inputs
  have ht : py_truthy_str (some listPath) = true := by
    simp [py_truthy_str, h]
  rw [ht]
  simp only [Bool.not_true, if_pos rfl]
  rw [dedup_first_eq_spec]
  rfl

/-- Witness for C8 at a concrete list file: whitespace is stripped,
blank and comment lines are skipped, and a repeated input is kept only
at its first position. -/
theorem C8_witness :
    read_playlist_inputs ["a", "b"] (some "pl.txt") true [" b ", "", "# comment", "c"]
      = .ok (dedup_first_spec [] (["a", "b"] ++ filter_list_lines [" b ", "", "# comment", "c"]))
    ∧ read_playlist_inputs ["a", "b"] (some "pl.txt") true [" b ", "", "# comment", "c"]
      = .ok ["a", "b", "c"] := by
  have h := C8_read_inputs ["a", "b"] "pl.txt" [" b ", "", "# comment", "c"] (by decide)
  exact ⟨h.1, by rw [h.1]; exact congrArg Except.ok (by decide)⟩

/-- C9: both the flat and the full extraction loop produce exactly one row
per playlist entry, in entry order, and a missing (falsy) entry yields the
placeholder row: title `[Unavailable]`, the 1-based position as index, and
empty channel, duration, url and id. -/
theorem C9_row_per_entry (entries : List (Option Entry)) (i : Nat) :
    (flat_rows entries).length = entries.length
    ∧ (full_rows entries).length = entries.length
    ∧ (flat_rows entries)[i]? = (entries[i]?).map (fun e => flat_row (1 + i) e)
    ∧ (full_rows entries)[i]? = (entries[i]?).map (fun e => full_row (1 + i) e)
    ∧ flat_row (1 + i) none = unavailable_row (1 + i)
    ∧ full_row (1 + i) none = unavailable_row (1 + i)
    ∧ unavailable_row (1 + i)
        = { index := 1 + i, title := "[Unavailable]", channel := "", duration := "",
            url := "", id := "" } := by
  refine ⟨?_, ?_, ?_, ?_, rfl, rfl, rfl⟩
  · unfold flat_rows
    rw [List.length_map, enum_from_length]
  · unfold full_rows
    rw [List.length_map, enum_from_length]
  · unfold flat_rows
    rw [List.getElem?_map, enum_from_getElem?]
    cases entries[i]? <;> rfl
  · unfold full_rows
    rw [List.getElem?_map, enum_from_getElem?]
    cases entries[i]? <;> rfl

/-- C10: the cookies-file existence check is asymmetric: with a truthy
cookies path whose file does not exist, extract_playlist_flat raises
FileNotFoundError before looking at the backend response, while
extract_playlist_full and enrich_one perform no existence check (their
signatures take no filesystem answer), put the path into their yt-dlp
options unchecked, and can never produce a FileNotFoundError. -/
theorem C10_cookies_asymmetry (c : String) (hc : c ≠ "") (u : String)
    (items : Option String) (resp : Option PlaylistInfo) :
    extract_playlist_flat u (some c) false items resp
      = .error (.fileNotFound ("Cookies file not found: " ++ c))
    ∧ (full_ydl_opts (some c) items).cookiefile = some c
    ∧ is_file_not_found (extract_playlist_full u (some c) items resp) = false
    ∧ (enrich_ydl_opts (some c)).cookiefile = some c := by
  have ht : py_truthy_str (some c) = true := by
    simp [py_truthy_str, hc]
  refine ⟨?_, ?_, ?_, ?_⟩
  · unfold extract_playlist_flat flat_ydl_opts
    rw [ht]
    rfl
  · unfold full_ydl_opts
    simp [ht]
  · unfold extract_playlist_full is_file_not_found
    cases resp with
    | none => rfl
    | some info =>
      obtain ⟨self, entries⟩ := info
      cases entries <;> rfl
  · unfold enrich_ydl_opts
    simp [ht]

/-- Witness for C10 at a concrete cookies path: flat errors without a
backend response, full succeeds on the same inputs. -/
theorem C10_witness :
    extract_playlist_flat "https://u" (some "cookies.txt") false none
        (some ⟨{ title := "P", id := "pid" }, some []⟩)
      = .error (.fileNotFound ("Cookies file not found: " ++ "cookies.txt"))
    ∧ (full_ydl_opts (some "cookies.txt") none).cookiefile = some "cookies.txt"
    ∧ is_file_not_found
        (extract_playlist_full "https://u" (some "cookies.txt") none
          (some ⟨{ title := "P", id := "pid" }, some []⟩)) = false
    ∧ (enrich_ydl_opts (some "cookies.txt")).cookiefile = some "cookies.txt" :=
  C10_cookies_asymmetry "cookies.txt" (by decide) "https://u" none
    (some ⟨{ title := "P", id := "pid" }, some []⟩)
